import Mathlib

/-!
Shallow embedding of the transformation engine of `etl_lib/transformers.py`
(an ETL pipeline over pandas DataFrames) together with proofs about the
claims of its specification.

Modelling conventions, fixed once here:

* A cell of a DataFrame column is one of: a string, an integer, a float
  (modelled as a rational; every float produced by the modelled numeric
  parser has a power-of-ten denominator), a boolean, a timestamp
  (abstracted to an integer tag), or a missing value.  Pandas has several
  distinct missing-value objects whose observable behaviour differs
  (`float('nan')`, Python `None`, `pd.NaT`, `pd.NA`); they are kept apart
  by a flavor tag because `astype(str)` renders them differently.
* A DataFrame is an ordered association list of named columns.
* Column dtypes are not stored; they are inferred from the cells with
  pandas' construction rules (`inferDtype`), which is what the filter
  code's `is_string_dtype` / `is_object_dtype` test observes.
* `str()` / `astype(str)` renderings follow CPython / pandas: floats print
  with a decimal point, booleans as `True` / `False`, missing values as
  their flavor's text.  Timestamp rendering is abstracted to an injective
  tag string, as no claim inspects it.
* Raising code is modelled with `Except Unit`; code whose exceptions are
  caught and logged is modelled total, with the caught branch mapped to
  the `except:` handler's behaviour.
-/

namespace EtlLib

/-- The distinct missing-value objects a pandas cell can hold.  They are
all "null" (`isnull` is true of each) but print differently under
`astype(str)`. -/
inductive NullFlavor where
  | nanV
  | noneV
  | natV
  | naV
  deriving DecidableEq, Repr

/-- String rendering of each missing-value object, as produced by
`str()` / `astype(str)`. -/
def NullFlavor.pyStr : NullFlavor → String
  | .nanV => "nan"
  | .noneV => "None"
  | .natV => "NaT"
  | .naV => "<NA>"

/-- One cell of a DataFrame column. -/
inductive Cell where
  | str (s : String)
  | int (n : Int)
  | float (q : Rat)
  | bool (b : Bool)
  | datetime (n : Int)
  | null (f : NullFlavor)
  deriving DecidableEq, Repr

/-- Column dtypes distinguished by the code under verification.  `int64N`
is the nullable extension dtype `Int64`. -/
inductive Dtype where
  | int64
  | float64
  | boolD
  | datetime64
  | int64N
  | objectD
  deriving DecidableEq, Repr

def Cell.isBoolCell : Cell → Bool
  | .bool _ => true
  | _ => false

def Cell.isIntCell : Cell → Bool
  | .int _ => true
  | _ => false

/-- Cells representable in a `float64` column: numbers and `NaN`. -/
def Cell.isFloatCompat : Cell → Bool
  | .int _ => true
  | .float _ => true
  | .null .nanV => true
  | _ => false

/-- Cells representable in a `datetime64` column: timestamps and `NaT`. -/
def Cell.isDtCompat : Cell → Bool
  | .datetime _ => true
  | .null .natV => true
  | _ => false

/-- Cells representable in a nullable `Int64` column. -/
def Cell.isIntNCompat : Cell → Bool
  | .int _ => true
  | .null .naV => true
  | _ => false

/-- Pandas dtype inference for a column, following the construction rules
(`bool` / `int64` / `float64` / `datetime64` / `Int64`, object otherwise). -/
def inferDtype (col : List Cell) : Dtype :=
  if col.isEmpty then .objectD
  else if col.all Cell.isBoolCell then .boolD
  else if col.all Cell.isIntCell then .int64
  else if col.all Cell.isFloatCompat then .float64
  else if col.all Cell.isDtCompat then .datetime64
  else if col.all Cell.isIntNCompat then .int64N
  else .objectD

def pow10 : Nat → Nat
  | 0 => 1
  | n + 1 => 10 * pow10 n

/-- Smallest exponent `k ≤ 39` with `den ∣ 10 ^ k`, when one exists.  The
denominators reachable from the modelled decimal parser always divide a
power of ten. -/
def findPow10 (den : Nat) : Option Nat :=
  (List.range 40).find? (fun k => pow10 k % den == 0)

/-- Render `frac` (which is `< 10 ^ k`) as `k` zero-padded fractional
digits with trailing zeros stripped; an all-zero fraction renders as a
single `0`, matching CPython float printing. -/
def fracDigitsStr (frac : Nat) (k : Nat) : String :=
  let s := toString frac
  let full := String.mk (List.replicate (k - s.length) '0') ++ s
  let stripped := (full.toList.reverse.dropWhile (fun c => c == '0')).reverse
  if stripped.isEmpty then "0" else String.mk stripped

/-- CPython `str()` of a float, for the decimal-valued rationals the
model produces. -/
def ratPyStr (q : Rat) : String :=
  match findPow10 q.den with
  | some k =>
    let sign := if q.num < 0 then "-" else ""
    let scaled := q.num.natAbs * pow10 k / q.den
    sign ++ toString (scaled / pow10 k) ++ "." ++ fracDigitsStr (scaled % pow10 k) k
  | none => toString q.num ++ "/" ++ toString q.den

/-- Cell rendering of `astype(str)`.  It depends on the column's dtype:
in a `float64` column an integral value prints as `n.0`. -/
def pyStrCell (d : Dtype) : Cell → String
  | .str s => s
  | .int n => if d == Dtype.float64 then toString n ++ ".0" else toString n
  | .float q => ratPyStr q
  | .bool b => if b then "True" else "False"
  | .datetime n => "ts:" ++ toString n
  | .null f => NullFlavor.pyStr f

/-- The conversion `series.astype(str)`: every cell, missing ones included, becomes its
string rendering under the column's inferred dtype. -/
def astypeStr (col : List Cell) : List Cell :=
  let d := inferDtype col
  col.map (fun c => .str (pyStrCell d c))

/-- Python `str()` of a configuration scalar (the `str(value)` calls in
`filter_rows`). -/
def pyStrScalar : Cell → String
  | .str s => s
  | .int n => toString n
  | .float q => ratPyStr q
  | .bool b => if b then "True" else "False"
  | .datetime n => "ts:" ++ toString n
  | .null f => NullFlavor.pyStr f

/-- Python `repr()` of a scalar, used when rendering a list value
(strings are quoted). -/
def pyReprCell (c : Cell) : String :=
  match c with
  | .str s => "\x27" ++ s ++ "\x27"
  | c => pyStrScalar c

/-- A filter `value` from the JSON template: a scalar or a list. -/
inductive FVal where
  | scalar (c : Cell)
  | list (l : List Cell)
  deriving DecidableEq, Repr

/-- Python `str()` of a filter value. -/
def pyStrFVal : FVal → String
  | .scalar c => pyStrScalar c
  | .list l => "[" ++ String.intercalate ", " (l.map pyReprCell) ++ "]"

/-- A DataFrame: ordered association list of named columns. -/
abbrev Df := List (String × List Cell)

def Df.names (df : Df) : List String := df.map Prod.fst

def Df.hasCol (df : Df) (n : String) : Bool := df.any (fun p => p.1 == n)

def Df.getCol (df : Df) (n : String) : Option (List Cell) :=
  (df.find? (fun p => p.1 == n)).map Prod.snd

def Df.getColD (df : Df) (n : String) : List Cell := (Df.getCol df n).getD []

def Df.rowCount (df : Df) : Nat :=
  match df with
  | [] => 0
  | p :: _ => p.2.length

/-- Column assignment `df[n] = col`: replace the column in place when the name exists,
append it at the end otherwise. -/
def Df.setCol (df : Df) (n : String) (col : List Cell) : Df :=
  if Df.hasCol df n then df.map (fun p => if p.1 == n then (p.1, col) else p)
  else df ++ [(n, col)]

def digitsToNat (ds : List Char) : Nat :=
  ds.foldl (fun acc c => acc * 10 + (c.toNat - 48)) 0

/-- Numeric parsing as exercised through `pd.to_numeric`: an optional
sign, then decimal digits with at most one point.  (The model covers the
plain decimal fragment; exponent forms are out of the modelled input
language.) -/
def parseNumericStr (s : String) : Option Cell :=
  let cs := s.toList
  let signRest : Bool × List Char :=
    match cs with
    | '-' :: r => (true, r)
    | '+' :: r => (false, r)
    | r => (false, r)
  let neg := signRest.1
  let rest := signRest.2
  let ip := rest.takeWhile (fun c => c != '.')
  let tl := rest.dropWhile (fun c => c != '.')
  let toSigned : Nat → Int := fun n => if neg then -(n : Int) else (n : Int)
  match tl with
  | [] =>
    if !ip.isEmpty && ip.all Char.isDigit then some (.int (toSigned (digitsToNat ip)))
    else none
  | _ :: fp =>
    if fp.any (fun c => c == '.') then none
    else if (ip.all Char.isDigit && fp.all Char.isDigit) && !(ip.isEmpty && fp.isEmpty) then
      let k := fp.length
      let num := digitsToNat ip * pow10 k + digitsToNat fp
      some (.float (mkRat (toSigned num) (pow10 k)))
    else none

/-- The conversion `pd.to_numeric(·, errors="coerce")`, cell-wise: parse what can be
parsed, everything else becomes `NaN`. -/
def toNumericCell : Cell → Cell
  | .str s =>
    match parseNumericStr s with
    | some c => c
    | none => .null .nanV
  | .int n => .int n
  | .float q => .float q
  | .bool b => .int (if b then 1 else 0)
  | .datetime n => .int n
  | .null _ => .null .nanV

/-- The cast `astype("Int64")` on one numeric cell: integers pass through, `NaN`
becomes `pd.NA`, a non-integral float raises (hence `none`). -/
def toInt64Cell : Cell → Option Cell
  | .int n => some (.int n)
  | .float q => if q.den == 1 then some (.int q.num) else none
  | .null _ => some (.null .naV)
  | _ => none

/-- The whole `int` conversion branch:
`pd.to_numeric(col, errors="coerce").astype("Int64")`.  `none` models the
column-level exception (caught by the caller, column left unchanged). -/
def intCoerceCol (col : List Cell) : Option (List Cell) :=
  (col.map toNumericCell).mapM toInt64Cell

/-- The `float` conversion branch:
`pd.to_numeric(col, errors="coerce").astype(float)`. -/
def toFloatCell (c : Cell) : Cell :=
  match toNumericCell c with
  | .int n => .float (n : Rat)
  | .float q => .float q
  | x => x

/-- Minimal timestamp parsing, modelling `pd.to_datetime` on the
`YYYY-MM-DD` fragment; the timestamp value is abstracted to the digit
string read as a number. -/
def parseDateStr (s : String) : Option Int :=
  match s.toList with
  | [y1, y2, y3, y4, '-', m1, m2, '-', d1, d2] =>
    if [y1, y2, y3, y4, m1, m2, d1, d2].all Char.isDigit then
      let m := digitsToNat [m1, m2]
      let d := digitsToNat [d1, d2]
      if (1 ≤ m && m ≤ 12) && (1 ≤ d && d ≤ 31) then
        some ((digitsToNat [y1, y2, y3, y4] : Int) * 10000 + m * 100 + d)
      else none
    else none
  | _ => none

/-- The conversion `pd.to_datetime(·, errors="coerce")`, cell-wise: unparsable cells and
missing cells become `NaT`. -/
def toDatetimeCell : Cell → Cell
  | .str s =>
    match parseDateStr s with
    | some n => .datetime n
    | none => .null .natV
  | .int n => .datetime n
  | .float q => if q.den == 1 then .datetime q.num else .null .natV
  | .bool _ => .null .natV
  | .datetime n => .datetime n
  | .null _ => .null .natV

/-- The fixed literal table `map_to_bool` of the `bool` branch.  Python
`dict` lookup uses `==`, so the boolean cells `True` / `False` and the
float values `1.0` / `0.0` hit the integer keys `1` / `0`. -/
def mapToBool : Cell → Option Bool
  | .str s =>
    if s == "true" || s == "True" || s == "TRUE" || s == "1" then some true
    else if s == "false" || s == "False" || s == "FALSE" || s == "0" then some false
    else none
  | .int n => if n == 1 then some true else if n == 0 then some false else none
  | .float q => if q == 1 then some true else if q == 0 then some false else none
  | .bool b => some b
  | _ => none

/-- The `bool` conversion branch: `col.map(map_to_bool).astype(bool)`.
A cell the table does not map becomes `NaN` under `map`, and
`astype(bool)` applies Python truthiness to it — `bool(float("nan"))` is
`True`, so every unmapped cell (missing cells included) comes out `true`. -/
def boolCoerceCell (c : Cell) : Cell :=
  match mapToBool c with
  | some b => .bool b
  | none => .bool true

/-- One column conversion of `convert_data_types`: dispatch on the target
type tag; an unsupported tag, or an exception in the `int` branch, leaves
the column unchanged (logged in the source). -/
def convertCol (ty : String) (col : List Cell) : List Cell :=
  if ty == "int" then (intCoerceCol col).getD col
  else if ty == "float" then col.map toFloatCell
  else if ty == "str" then astypeStr col
  else if ty == "datetime" then col.map toDatetimeCell
  else if ty == "bool" then col.map boolCoerceCell
  else col

/-- The function `convert_data_types(df, type_conversions)`: for each requested column
present in the DataFrame, replace it by its converted cells; absent
columns are skipped with a warning. -/
def convert_data_types (df : Df) (tcs : List (String × String)) : Df :=
  if tcs.isEmpty then df
  else
    tcs.foldl
      (fun d p =>
        if Df.hasCol d p.1 then Df.setCol d p.1 (convertCol p.2 (Df.getColD d p.1))
        else d)
      df

/-- Numeric value of a cell under Python `==` / `<` (booleans count as
`0` / `1`); `none` for non-numeric cells and missing values. -/
def Cell.numVal : Cell → Option Rat
  | .int n => some (n : Rat)
  | .float q => some q
  | .bool b => some (if b then 1 else 0)
  | _ => none

def isNanCell : Cell → Bool
  | .null .nanV => true
  | _ => false

def isNullCell : Cell → Bool
  | .null _ => true
  | _ => false

def isNumOrNan (c : Cell) : Bool := (Cell.numVal c).isSome || isNanCell c

/-- Python `==` between a cell and a scalar: numeric cross-type equality,
string and timestamp equality; everything else (missing values included —
`NaN` compares unequal to everything) is `False`, never an error. -/
def pyEq (c v : Cell) : Bool :=
  match Cell.numVal c, Cell.numVal v with
  | some a, some b => a == b
  | _, _ =>
    match c, v with
    | .str s, .str t => s == t
    | .datetime a, .datetime b => a == b
    | _, _ => false

/-- Ordering comparison of a cell against a scalar; `none` models the
`TypeError` of an unsupported comparison (caught by `filter_rows`, which
then skips the whole filter).  `NaN` compared with a number yields
`False`; `NaT` compared with a timestamp yields `False`. -/
def pyCmp (rc : Rat → Rat → Bool) (sc : String → String → Bool) (ic : Int → Int → Bool)
    (c v : Cell) : Option Bool :=
  if isNanCell c && isNumOrNan v then some false
  else if isNumOrNan c && isNanCell v then some false
  else
    match Cell.numVal c, Cell.numVal v with
    | some a, some b => some (rc a b)
    | _, _ =>
      match c, v with
      | .str s, .str t => some (sc s t)
      | .datetime a, .datetime b => some (ic a b)
      | .null .natV, .datetime _ => some false
      | .datetime _, .null .natV => some false
      | _, _ => none

def pyLt : Cell → Cell → Option Bool :=
  pyCmp (fun a b => a < b) (fun s t => s < t) (fun a b => a < b)

def pyLe : Cell → Cell → Option Bool :=
  pyCmp (fun a b => a ≤ b) (fun s t => s < t || s == t) (fun a b => a ≤ b)

def pyGt : Cell → Cell → Option Bool :=
  pyCmp (fun a b => b < a) (fun s t => t < s) (fun a b => b < a)

def pyGe : Cell → Cell → Option Bool :=
  pyCmp (fun a b => b ≤ a) (fun s t => t < s || s == t) (fun a b => b ≤ a)

/-- Membership as `Series.isin` sees it: like `==`, except that missing
values do match missing values in the probe list. -/
def isinEq (c v : Cell) : Bool :=
  match c, v with
  | .null _, .null _ => true
  | _, _ => pyEq c v

def listIsPref : List Char → List Char → Bool
  | [], _ => true
  | _ :: _, [] => false
  | a :: as, b :: bs => a == b && listIsPref as bs

def containsAux (pat : List Char) : List Char → Bool
  | [] => listIsPref pat []
  | c :: rest => listIsPref pat (c :: rest) || containsAux pat rest

/-- Literal substring test (the model of `str.contains`; the source passes
the value as a regex pattern, of which the claims exercise only the
literal fragment). -/
def strContainsSub (s pat : String) : Bool :=
  containsAux pat.toList s.toList

/-- Model of `str.startswith`. -/
def strStartsWith (s pat : String) : Bool :=
  listIsPref pat.toList s.toList

/-- Model of `str.endswith`. -/
def strEndsWith (s pat : String) : Bool :=
  listIsPref pat.toList.reverse s.toList.reverse

/-- Keep the rows whose mask bit is true (boolean-mask indexing). -/
def applyMask : List Bool → List Cell → List Cell
  | b :: ms, c :: cs => if b then c :: applyMask ms cs else applyMask ms cs
  | _, _ => []

def maskDf (df : Df) (mask : List Bool) : Df :=
  df.map (fun p => (p.1, applyMask mask p.2))

/-- Mask of a string-predicate filter.  On a string/object column the
`.str` accessor returns missing for every non-string cell, and `na=False`
turns that into "no match".  On any other dtype the source first converts
the whole column with `astype(str)`, so missing cells take part as their
string rendering (`"nan"`, `"NaT"`, ...). -/
def strPredMask (col : List Cell) (pred : String → String → Bool) (pat : String) : List Bool :=
  let d := inferDtype col
  if d == Dtype.objectD then
    col.map (fun c =>
      match c with
      | .str s => pred s pat
      | _ => false)
  else col.map (fun c => pred (pyStrCell d c) pat)

/-- The string predicate selected by each of the three string conditions. -/
def strPredFor (cond : String) : String → String → Bool :=
  if cond == "contains" then strContainsSub
  else if cond == "startswith" then strStartsWith
  else strEndsWith

def cmpMask (col : List Cell) (cmp : Cell → Cell → Option Bool) (v : Cell) :
    Option (List Bool) :=
  col.mapM (fun c => cmp c v)

/-- One filter entry of the JSON template: the `.get` results of
`column`, `condition`, `value`.  An absent `value` key reads back as
Python `None`, i.e. `.scalar (.null .noneV)`. -/
structure FilterEntry where
  column : Option String
  condition : Option String
  value : FVal
  deriving DecidableEq, Repr

/-- The row mask one filter entry computes over the filtered column, or
`none` when the entry is skipped: an unknown condition, a malformed list
value, or a comparison `TypeError` (all logged and skipped in the
source). -/
def filterMask (series : List Cell) (cond : String) (v : FVal) : Option (List Bool) :=
  if cond == ">" then
    match v with
    | .scalar s => cmpMask series pyGt s
    | .list _ => none
  else if cond == "<" then
    match v with
    | .scalar s => cmpMask series pyLt s
    | .list _ => none
  else if cond == ">=" then
    match v with
    | .scalar s => cmpMask series pyGe s
    | .list _ => none
  else if cond == "<=" then
    match v with
    | .scalar s => cmpMask series pyLe s
    | .list _ => none
  else if cond == "==" then
    match v with
    | .scalar s => some (series.map (fun c0 => pyEq c0 s))
    | .list _ => none
  else if cond == "!=" then
    match v with
    | .scalar s => some (series.map (fun c0 => !pyEq c0 s))
    | .list _ => none
  else if cond == "isin" then
    match v with
    | .list l => some (series.map (fun c0 => l.any (fun w => isinEq c0 w)))
    | .scalar _ => none
  else if cond == "notin" then
    match v with
    | .list l => some (series.map (fun c0 => !l.any (fun w => isinEq c0 w)))
    | .scalar _ => none
  else if cond == "isnull" then some (series.map isNullCell)
  else if cond == "notnull" then some (series.map (fun c0 => !isNullCell c0))
  else if cond == "contains" then some (strPredMask series strContainsSub (pyStrFVal v))
  else if cond == "startswith" then some (strPredMask series strStartsWith (pyStrFVal v))
  else if cond == "endswith" then some (strPredMask series strEndsWith (pyStrFVal v))
  else none

/-- One pass of the filter loop body.  A missing column, an unknown
condition, a malformed list value, or a comparison `TypeError` (the
`filterMask = none` cases) skips the entry, leaving the rows as they
were. -/
def applyFilter (df : Df) (f : FilterEntry) : Df :=
  match f.column with
  | none => df
  | some c =>
    if !Df.hasCol df c then df
    else
      match f.condition with
      | none => df
      | some cond =>
        match filterMask (Df.getColD df c) cond f.value with
        | some mask => maskDf df mask
        | none => df

/-- The function `filter_rows(df, filters)`: sequential conjunction of the entries,
each applied to the surviving rows; table empty list short-circuit as in
the source. -/
def filter_rows (df : Df) (filters : List FilterEntry) : Df :=
  if filters.isEmpty then df
  else filters.foldl applyFilter df

/-- One column-mapping entry as the code sees it: whether it is a `dict`
at all, and its `from` / `to` values when the keys are present. -/
structure MapEntry where
  isDict : Bool
  fromKey : Option String
  toKey : Option String
  deriving DecidableEq, Repr

/-- One pass of the first loop of `map_columns`: record the rename
`from → to` (overwriting an earlier record for the same `from`, as a
Python dict entry does) when the entry is well-formed, its `from` column
exists, and the names differ. -/
def renameStep (df : Df) (acc : String → Option String) (m : MapEntry) :
    String → Option String :=
  match m.isDict, m.fromKey, m.toKey with
  | true, some o, some n =>
    if Df.hasCol df o && o != n then fun k => if k == o then some n else acc k
    else acc
  | _, _, _ => acc

/-- The first loop of `map_columns`: build `rename_map` from the
well-formed entries whose `from` column exists and differs from `to`. -/
def buildRenameMap (df : Df) (ms : List MapEntry) : String → Option String :=
  ms.foldl (renameStep df) (fun _ => none)

/-- The list comprehension on line 38 evaluates `m["from"]` for every
entry, so a non-dict entry or one lacking `from` raises
(`TypeError` / `KeyError`) there, uncaught. -/
def mapEntryRaises (m : MapEntry) : Bool := !m.isDict || m.fromKey.isNone

def selectedFroms (df : Df) (ms : List MapEntry) : List String :=
  ms.filterMap
    (fun m =>
      match m.fromKey with
      | some o => if Df.hasCol df o then some o else none
      | none => none)

/-- The function `map_columns(df, column_mappings)`.  `Except.error` models the
uncaught exception from the selection comprehension. -/
def map_columns (df : Df) (column_mappings : List MapEntry) : Except Unit Df :=
  if column_mappings.isEmpty then .ok df
  else
    let rename := buildRenameMap df column_mappings
    if column_mappings.any mapEntryRaises then .error ()
    else
      let selected := selectedFroms df column_mappings
      if selected.isEmpty then .ok df
      else .ok (selected.map (fun o => ((rename o).getD o, Df.getColD df o)))

/-- Binary operators of the modelled `df.eval` expression language. -/
inductive BOp where
  | add
  | sub
  | mul
  | ltOp
  | gtOp
  | eqOp
  deriving DecidableEq, Repr

/-- The modelled `df.eval` expression: column references, literals and
binary operators; `invalid` stands for a string the parser rejects (which
makes `df.eval` raise). -/
inductive Expr where
  | colRef (n : String)
  | lit (c : Cell)
  | bin (op : BOp) (a b : Expr)
  | invalid
  deriving DecidableEq, Repr

/-- Row-wise arithmetic: numbers (missing propagates as `NaN`), `+` also
concatenates strings; type mismatches raise (`none`). -/
def evalCellBin (op : BOp) (a b : Cell) : Option Cell :=
  match op with
  | .add =>
    match a, b with
    | .str s, .str t => some (.str (s ++ t))
    | .null .nanV, _ => if isNumOrNan b then some (.null .nanV) else none
    | _, .null .nanV => if isNumOrNan a then some (.null .nanV) else none
    | .int x, .int y => some (.int (x + y))
    | _, _ =>
      match Cell.numVal a, Cell.numVal b with
      | some x, some y => some (.float (x + y))
      | _, _ => none
  | .sub =>
    match a, b with
    | .null .nanV, _ => if isNumOrNan b then some (.null .nanV) else none
    | _, .null .nanV => if isNumOrNan a then some (.null .nanV) else none
    | .int x, .int y => some (.int (x - y))
    | _, _ =>
      match Cell.numVal a, Cell.numVal b with
      | some x, some y => some (.float (x - y))
      | _, _ => none
  | .mul =>
    match a, b with
    | .null .nanV, _ => if isNumOrNan b then some (.null .nanV) else none
    | _, .null .nanV => if isNumOrNan a then some (.null .nanV) else none
    | .int x, .int y => some (.int (x * y))
    | _, _ =>
      match Cell.numVal a, Cell.numVal b with
      | some x, some y => some (.float (x * y))
      | _, _ => none
  | .ltOp => (pyLt a b).map Cell.bool
  | .gtOp => (pyGt a b).map Cell.bool
  | .eqOp => some (.bool (pyEq a b))

def exprValid : Expr → Bool
  | .colRef _ => true
  | .lit _ => true
  | .bin _ a b => exprValid a && exprValid b
  | .invalid => false

def exprCols : Expr → List String
  | .colRef n => [n]
  | .lit _ => []
  | .bin _ a b => exprCols a ++ exprCols b
  | .invalid => []

def evalRow (df : Df) (i : Nat) : Expr → Option Cell
  | .colRef n => (Df.getColD df n).get? i
  | .lit c => some c
  | .bin op a b => do
    let x ← evalRow df i a
    let y ← evalRow df i b
    evalCellBin op x y
  | .invalid => none

/-- Model of `df.eval(expression, engine="python")`: name resolution and parsing
fail up front regardless of the row count; otherwise the expression is
evaluated row-wise and any cell-level error fails the whole call (caught
by the caller, which skips the entry). -/
def evalCol (df : Df) (e : Expr) : Option (List Cell) :=
  if !exprValid e || (exprCols e).any (fun n => !Df.hasCol df n) then none
  else (List.range (Df.rowCount df)).mapM (fun i => evalRow df i e)

/-- One `new_columns` entry: the `.get` results of its fields.  An absent
or empty string reads as falsy for the `name` / `operation` /
`source_column` / `expression` checks; `value` records key presence
(a present JSON `null` is `some (.null .noneV)`). -/
structure NewColEntry where
  name : Option String
  operation : Option String
  sources : Option (List String)
  separator : Option String
  expression : Option Expr
  source_column : Option String
  value : Option Cell
  deriving DecidableEq, Repr

def falsyStrOpt : Option String → Bool
  | none => true
  | some s => s.isEmpty

/-- Model of `df[sources].astype(str).agg(separator.join, axis=1)`: per-dtype
string rendering of each source column, joined row-wise; the result
always has one cell per row of `df`. -/
def concatCol (df : Df) (sources : List String) (sep : String) : List Cell :=
  let rendered := sources.map (fun s =>
    let col := Df.getColD df s
    col.map (pyStrCell (inferDtype col)))
  (List.range (Df.rowCount df)).map
    (fun i => .str (String.intercalate sep (rendered.map (fun r => r.getD i ""))))

/-- One pass of the `add_new_columns` loop body; every skip branch of the
source (missing name/operation, missing sources, eval error, ...) leaves
the DataFrame unchanged. -/
def applyNewCol (df : Df) (cd : NewColEntry) : Df :=
  if falsyStrOpt cd.name || falsyStrOpt cd.operation then df
  else
    let name := cd.name.getD ""
    match cd.operation with
    | some "concat" =>
      let sources := cd.sources.getD []
      if sources.any (fun s => !Df.hasCol df s) then df
      else Df.setCol df name (concatCol df sources (cd.separator.getD ""))
    | some "eval" =>
      match cd.expression with
      | none => df
      | some e =>
        match evalCol df e with
        | some col => Df.setCol df name col
        | none => df
    | some "copy" =>
      match cd.source_column with
      | none => df
      | some s =>
        if s.isEmpty then df
        else if Df.hasCol df s then Df.setCol df name (Df.getColD df s)
        else df
    | some "default_value" =>
      match cd.value with
      | none => df
      | some v => Df.setCol df name (List.replicate (Df.rowCount df) v)
    | _ => df

/-- The function `add_new_columns(df, new_column_definitions)`: entries applied in
order, each seeing the columns created before it. -/
def add_new_columns (df : Df) (defs : List NewColEntry) : Df :=
  if defs.isEmpty then df
  else defs.foldl applyNewCol df

/-- The optional `transformations` object of the template: each known key
may be absent; `otherKeys` records whether the dict holds any further
keys (it only influences Python truthiness of the dict). -/
structure TransformOptions where
  column_mappings : Option (List MapEntry)
  filters : Option (List FilterEntry)
  new_columns : Option (List NewColEntry)
  data_type_conversions : Option (List (String × String))
  otherKeys : Bool
  deriving DecidableEq, Repr

def TransformOptions.isTruthy (o : TransformOptions) : Bool :=
  o.otherKeys || o.column_mappings.isSome || o.filters.isSome ||
    o.new_columns.isSome || o.data_type_conversions.isSome

/-- The function `transform_data(df, transform_options)`: work on a copy, then the
four stages in fixed order, each stage run only when its key is present.
`none` models passing Python `None`; a falsy argument returns the input. -/
def transform_data (df : Df) (topts : Option TransformOptions) : Except Unit Df :=
  match topts with
  | none => .ok df
  | some o =>
    if !TransformOptions.isTruthy o then .ok df
    else
      match (match o.column_mappings with
             | some ms => map_columns df ms
             | none => Except.ok df) with
      | .error e => .error e
      | .ok d1 =>
        let d2 := match o.filters with
          | some fs => filter_rows d1 fs
          | none => d1
        let d3 := match o.new_columns with
          | some ds => add_new_columns d2 ds
          | none => d2
        let d4 := match o.data_type_conversions with
          | some tcs => convert_data_types d3 tcs
          | none => d3
        .ok d4

/-! ### Object-identity model

`transform_data` copies its argument up front and the stages mutate only
that working copy (`add_new_columns` and `convert_data_types` assign
columns in place; `map_columns` and `filter_rows` return either their
argument or a fresh frame).  To reason about what the caller's object
looks like after the call, the functions are replayed over an explicit
heap of DataFrame objects addressed by allocation index. -/

abbrev Heap := List Df

def heapRead (h : Heap) (r : Nat) : Df := h.getD r []

def heapWrite (h : Heap) (r : Nat) (d : Df) : Heap := h.set r d

def heapAlloc (h : Heap) (d : Df) : Heap × Nat := (h ++ [d], h.length)

/-- Heap version of `map_columns`: no mutation; it returns its argument on
the two early-return paths and a freshly allocated frame otherwise. -/
def map_columns_heap (h : Heap) (r : Nat) (ms : List MapEntry) : Heap × Except Unit Nat :=
  if ms.isEmpty then (h, .ok r)
  else
    match map_columns (heapRead h r) ms with
    | .error e => (h, .error e)
    | .ok d =>
      if (selectedFroms (heapRead h r) ms).isEmpty then (h, .ok r)
      else
        let a := heapAlloc h d
        (a.1, .ok a.2)

/-- Heap version of `filter_rows`: returns its argument when there are no
filters, otherwise works on a fresh copy. -/
def filter_rows_heap (h : Heap) (r : Nat) (fs : List FilterEntry) : Heap × Nat :=
  if fs.isEmpty then (h, r)
  else
    let a := heapAlloc h (filter_rows (heapRead h r) fs)
    (a.1, a.2)

/-- Heap version of `add_new_columns`: it mutates the frame it is handed and returns it. -/
def add_new_columns_heap (h : Heap) (r : Nat) (ds : List NewColEntry) : Heap × Nat :=
  if ds.isEmpty then (h, r)
  else (heapWrite h r (add_new_columns (heapRead h r) ds), r)

/-- Heap version of `convert_data_types`: it mutates the frame it is handed and returns it. -/
def convert_data_types_heap (h : Heap) (r : Nat) (tcs : List (String × String)) :
    Heap × Nat :=
  if tcs.isEmpty then (h, r)
  else (heapWrite h r (convert_data_types (heapRead h r) tcs), r)

/-- Stages 2–4 of `transform_data` on the heap, starting from the frame
the mapping stage produced. -/
def transform_tail_heap (h : Heap) (r1 : Nat) (o : TransformOptions) : Heap × Nat :=
  let s2 := match o.filters with
    | some fs => filter_rows_heap h r1 fs
    | none => (h, r1)
  let s3 := match o.new_columns with
    | some ds => add_new_columns_heap s2.1 s2.2 ds
    | none => s2
  match o.data_type_conversions with
  | some tcs => convert_data_types_heap s3.1 s3.2 tcs
  | none => s3

/-- Heap version of `transform_data`: allocate the working copy, then thread
it through the four stages. -/
def transform_data_heap (h : Heap) (r : Nat) (topts : Option TransformOptions) :
    Heap × Except Unit Nat :=
  match topts with
  | none => (h, .ok r)
  | some o =>
    if !TransformOptions.isTruthy o then (h, .ok r)
    else
      let a1 := heapAlloc h (heapRead h r)
      let s1 := match o.column_mappings with
        | some ms => map_columns_heap a1.1 a1.2 ms
        | none => (a1.1, .ok a1.2)
      match s1.2 with
      | .error e => (s1.1, .error e)
      | .ok r1 =>
        let s4 := transform_tail_heap s1.1 r1 o
        (s4.1, .ok s4.2)

/-- The tabular-dataset invariant: unique column names and all columns of
equal length. -/
def DfOk (df : Df) : Prop :=
  (Df.names df).Nodup ∧ ∀ p ∈ df, (p.2 : List Cell).length = Df.rowCount df

instance : DecidablePred DfOk := fun df => by
  unfold DfOk
  infer_instance

/-! ### Helper lemmas -/

theorem filter_rows_eq_foldl (df : Df) (fs : List FilterEntry) :
    filter_rows df fs = fs.foldl applyFilter df := by
  cases fs with
  | nil => rfl
  | cons f fs => rfl

theorem add_new_columns_eq_foldl (df : Df) (ds : List NewColEntry) :
    add_new_columns df ds = ds.foldl applyNewCol df := by
  cases ds with
  | nil => rfl
  | cons d ds => rfl

theorem convert_data_types_eq_foldl (df : Df) (tcs : List (String × String)) :
    convert_data_types df tcs =
      tcs.foldl
        (fun d p =>
          if Df.hasCol d p.1 then Df.setCol d p.1 (convertCol p.2 (Df.getColD d p.1))
          else d)
        df := by
  cases tcs with
  | nil => rfl
  | cons t ts => rfl

theorem names_maskDf (df : Df) (mask : List Bool) :
    Df.names (maskDf df mask) = Df.names df := by
  simp [Df.names, maskDf, List.map_map, Function.comp]

theorem names_applyFilter (df : Df) (f : FilterEntry) :
    Df.names (applyFilter df f) = Df.names df := by
  unfold applyFilter
  cases f.column with
  | none => rfl
  | some c =>
    dsimp only
    split
    · rfl
    · split
      · rfl
      · split
        · exact names_maskDf df _
        · rfl

theorem names_filter_foldl (df : Df) (fs : List FilterEntry) :
    Df.names (fs.foldl applyFilter df) = Df.names df := by
  induction fs generalizing df with
  | nil => rfl
  | cons f fs ih => rw [List.foldl_cons, ih, names_applyFilter]

theorem hasCol_iff_names (df : Df) (c : String) :
    Df.hasCol df c = true ↔ c ∈ Df.names df := by
  simp [Df.hasCol, Df.names, List.any_eq_true, List.mem_map]

theorem hasCol_filter_foldl (df : Df) (fs : List FilterEntry) (c : String) :
    Df.hasCol (fs.foldl applyFilter df) c = Df.hasCol df c := by
  have h1 := hasCol_iff_names (fs.foldl applyFilter df) c
  rw [names_filter_foldl] at h1
  rw [← hasCol_iff_names df c] at h1
  cases hx : Df.hasCol df c <;> cases hy : Df.hasCol (fs.foldl applyFilter df) c <;>
    simp_all

theorem getCol_hasCol (df : Df) (c : String) (col : List Cell)
    (h : Df.getCol df c = some col) : Df.hasCol df c = true := by
  unfold Df.getCol at h
  unfold Df.hasCol
  rcases hf : df.find? (fun p => p.1 == c) with _ | p
  · rw [hf] at h
    simp at h
  · have hm := List.mem_of_find?_eq_some hf
    have hp := List.find?_some hf
    rw [List.any_eq_true]
    exact ⟨p, hm, hp⟩

/-! ### Claim theorems: type coercion (C1, C8, C10) -/

/-- C1: the spec claims coercing the column `["1","bad","3"]` to `bool`
yields `[true, false, true]`, with the unmapped token `"bad"` becoming the
falsy default `false`.  The code's own comments state the same intent
("Unmapped values become NaN, then False by astype(bool)"), but
`astype(bool)` applies Python truthiness and `bool(float("nan"))` is
`True`, so the code actually produces `[true, true, true]`. -/
theorem claim_C1_bool_coercion_bug :
    convert_data_types [("c", [Cell.str "1", Cell.str "bad", Cell.str "3"])] [("c", "bool")]
      = [("c", [Cell.bool true, Cell.bool true, Cell.bool true])] ∧
    [("c", [Cell.bool true, Cell.bool true, Cell.bool true])]
      ≠ [("c", [Cell.bool true, Cell.bool false, Cell.bool true])] := by
  exact ⟨rfl, by decide⟩

/-- C8: coercing the column `["1","bad","3"]` to `int` parses the
parseable cells, turns the unparsable cell into a missing value, and the
result lives in the nullable-integer representation (`pd.NA`), exactly as
claimed. -/
theorem claim_C8_int_coercion :
    convert_data_types [("c", [Cell.str "1", Cell.str "bad", Cell.str "3"])] [("c", "int")]
      = [("c", [Cell.int 1, Cell.null .naV, Cell.int 3])] := by
  rfl

/-- C10 counterexample: a previously-null cell does not always become the
string `"nan"` under `str` coercion.  A column created by the
`default_value` operation with a JSON `null` holds Python `None`, and
`astype(str)` renders that cell as `"None"`. -/
theorem claim_C10_counterexample :
    convert_data_types
        (add_new_columns [("a", [Cell.int 7])]
          [⟨some "c", some "default_value", none, none, none, none,
            some (Cell.null .noneV)⟩])
        [("c", "str")]
      = [("a", [Cell.int 7]), ("c", [Cell.str "None"])] ∧
    Cell.str "None" ≠ Cell.str "nan" ∧
    isNullCell (Cell.null .noneV) = true := by
  exact ⟨rfl, by decide, rfl⟩

theorem getCol_setCol_self (df : Df) (c : String) (col : List Cell)
    (h : Df.hasCol df c = true) :
    Df.getCol (df.map (fun p => if p.1 == c then (p.1, col) else p)) c = some col := by
  induction df with
  | nil => simp [Df.hasCol] at h
  | cons p rest ih =>
    by_cases hp : p.1 = c
    · have hpb : (p.1 == c) = true := by simpa using hp
      unfold Df.getCol
      rw [List.map_cons, if_pos hpb]
      rw [show List.find? (fun q => q.1 == c)
            ((p.1, col) :: List.map (fun q => if (q.1 == c) = true then (q.1, col) else q) rest)
          = some (p.1, col) from List.find?_cons_of_pos _ hpb]
      rfl
    · have hpb : (p.1 == c) = false := by simpa using hp
      have h2 : Df.hasCol rest c = true := by
        unfold Df.hasCol at h ⊢
        simpa [List.any_cons, hpb] using h
      unfold Df.getCol at ih ⊢
      rw [List.map_cons, if_neg (by simp [hpb]), List.find?_cons_of_neg _ (by simp [hpb])]
      exact ih h2

/-- C10 amended: coercing a column to `str` turns every cell — missing
cells included — into its string rendering under the column's dtype, so
no missing cell survives; a `NaN`-missing cell in particular becomes the
literal string `"nan"` (while `None`, `NaT` and `pd.NA` missing cells
become their own renderings, not `"nan"`). -/
theorem claim_C10_amended (df : Df) (c : String) (col : List Cell)
    (h : Df.getCol df c = some col) :
    Df.getCol (convert_data_types df [(c, "str")]) c = some (astypeStr col) ∧
    (∀ x ∈ astypeStr col, isNullCell x = false) ∧
    (∀ i, col.get? i = some (Cell.null .nanV) →
      (astypeStr col).get? i = some (Cell.str "nan")) := by
  have hc := getCol_hasCol df c col h
  have hcolD : Df.getColD df c = col := by
    unfold Df.getColD
    rw [h]
    rfl
  refine ⟨?_, ?_, ?_⟩
  · unfold convert_data_types
    simp only [List.isEmpty_cons, Bool.false_eq_true, if_false, List.foldl_cons,
      List.foldl_nil, hc, if_pos]
    rw [hcolD]
    unfold Df.setCol
    rw [if_pos hc]
    have hcv : convertCol "str" col = astypeStr col := by rfl
    rw [hcv]
    exact getCol_setCol_self df c _ hc
  · intro x hx
    unfold astypeStr at hx
    simp only [List.mem_map] at hx
    rcases hx with ⟨y, _, hy⟩
    rw [← hy]
    rfl
  · intro i hi
    unfold astypeStr
    rw [List.get?_map, hi]
    rfl

/-- C10 amended, witness at a concrete column `[NaN, 1]` (a `float64`
column, whose integer cell renders as `"1.0"`). -/
theorem claim_C10_amended_witness :
    Df.getCol
        (convert_data_types [("c", [Cell.null .nanV, Cell.int 1])] [("c", "str")]) "c"
      = some [Cell.str "nan", Cell.str "1.0"] :=
  (claim_C10_amended [("c", [Cell.null .nanV, Cell.int 1])] "c"
    [Cell.null .nanV, Cell.int 1] rfl).1

/-! ### Claim theorems: row filtering (C2) -/

theorem applyFilter_strpred (df : Df) (c : String) (cond : String) (v : FVal)
    (hc : Df.hasCol df c = true)
    (hcond : cond = "contains" ∨ cond = "startswith" ∨ cond = "endswith") :
    applyFilter df ⟨some c, some cond, v⟩ =
      maskDf df (strPredMask (Df.getColD df c) (strPredFor cond) (pyStrFVal v)) := by
  rcases hcond with rfl | rfl | rfl <;>
    simp [applyFilter, filterMask, hc, strPredFor]

/-- C2 counterexample: in a non-string column (a numeric column holding
`[1, NaN]`, i.e. `float64`) the whole column is first cast with
`astype(str)`, which turns the missing cell into the literal string
`"nan"`; the `contains "nan"` filter then keeps exactly the row whose
cell was null, contradicting "a null cell never matches ... including
when the column is non-string and is first coerced to its string
representation". -/
theorem claim_C2_counterexample :
    filter_rows [("c", [Cell.int 1, Cell.null .nanV])]
        [⟨some "c", some "contains", FVal.scalar (Cell.str "nan")⟩]
      = [("c", [Cell.null .nanV])] ∧
    isNullCell (Cell.null .nanV) = true := by
  exact ⟨by decide, rfl⟩

/-- C2 amended: for the string-predicate conditions `contains` /
`startswith` / `endswith`, a null cell never matches — and its row is
dropped rather than raising — *when the filtered column is of
string/object dtype* (the `na=False` guard); on a non-string column the
cells are first cast to strings and a null cell takes part as its
missing-value rendering, so it can match. -/
theorem claim_C2_amended (df : Df) (c : String) (col : List Cell) (cond : String)
    (v : FVal) (i : Nat) (f : NullFlavor)
    (hcond : cond = "contains" ∨ cond = "startswith" ∨ cond = "endswith")
    (hcol : Df.getCol df c = some col)
    (hdt : inferDtype col = Dtype.objectD)
    (hi : col.get? i = some (Cell.null f)) :
    filter_rows df [⟨some c, some cond, v⟩] =
      maskDf df (strPredMask col (strPredFor cond) (pyStrFVal v)) ∧
    (strPredMask col (strPredFor cond) (pyStrFVal v)).get? i = some false := by
  have hc := getCol_hasCol df c col hcol
  have hcolD : Df.getColD df c = col := by
    unfold Df.getColD
    rw [hcol]
    rfl
  constructor
  · rw [filter_rows_eq_foldl, List.foldl_cons, List.foldl_nil,
      applyFilter_strpred df c cond v hc hcond, hcolD]
  · unfold strPredMask
    rw [hdt]
    simp only [beq_self_eq_true, if_pos]
    rw [List.get?_map, hi]
    rfl

/-- C2 amended, witness: an object-dtype column `["x", NaN]`, filtered
with `contains "x"`; the null row is dropped. -/
theorem claim_C2_amended_witness :
    filter_rows [("c", [Cell.str "x", Cell.null .nanV])]
        [⟨some "c", some "contains", FVal.scalar (Cell.str "x")⟩]
      = maskDf [("c", [Cell.str "x", Cell.null .nanV])]
          (strPredMask [Cell.str "x", Cell.null .nanV] (strPredFor "contains")
            (pyStrFVal (FVal.scalar (Cell.str "x")))) ∧
    (strPredMask [Cell.str "x", Cell.null .nanV] (strPredFor "contains")
        (pyStrFVal (FVal.scalar (Cell.str "x")))).get? 1 = some false :=
  claim_C2_amended [("c", [Cell.str "x", Cell.null .nanV])] "c"
    [Cell.str "x", Cell.null .nanV] "contains" (FVal.scalar (Cell.str "x")) 1 .nanV
    (Or.inl rfl) rfl rfl rfl

/-! ### Claim theorems: column mapping (C3, C4, C5) -/

/-- C3: the claim (and the code's own first loop, which logs
"... Skipping.") says a malformed mapping entry is skipped and the call
returns normally.  But the selection comprehension
`[m["from"] for m in column_mappings if m["from"] in df.columns]`
re-reads `m["from"]` from every entry, so an entry lacking `from` (or a
non-dict entry) raises an uncaught `KeyError` / `TypeError` even though a
well-formed entry follows. -/
theorem claim_C3_malformed_entry_raises :
    map_columns [("a", [Cell.int 1])]
        [⟨true, none, some "x"⟩, ⟨true, some "a", some "b"⟩] = .error () ∧
    map_columns [("a", [Cell.int 1])] [⟨false, none, none⟩] = .error () := by
  exact ⟨rfl, rfl⟩

/-- C4 counterexample: a mapping list in which the same existing `from`
column appears in two entries selects that column twice
(`df[["a","a"]]`) and renames both copies with the last rename, so the
output has duplicate column names, breaking the dataset invariant even
though the input satisfied it. -/
theorem claim_C4_counterexample :
    DfOk [("a", [Cell.int 1]), ("b", [Cell.int 2])] ∧
    map_columns [("a", [Cell.int 1]), ("b", [Cell.int 2])]
        [⟨true, some "a", some "x"⟩, ⟨true, some "a", some "y"⟩]
      = .ok [("y", [Cell.int 1]), ("y", [Cell.int 1])] ∧
    ¬ DfOk [("y", [Cell.int 1]), ("y", [Cell.int 1])] := by
  exact ⟨by decide, rfl, by decide⟩

/-- C5: with at least one mapping entry given but no `from` name present
in the DataFrame, `map_columns` returns the original DataFrame unchanged
(the documented quirk); an empty mapping list is likewise the identity. -/
theorem claim_C5_unresolved_mappings_identity (df : Df) (ms : List MapEntry)
    (hne : ms ≠ [])
    (hwf : ∀ m ∈ ms, m.isDict = true ∧ m.fromKey.isSome = true)
    (hmiss : ∀ m ∈ ms, Df.hasCol df (m.fromKey.getD "") = false) :
    map_columns df ms = .ok df ∧ map_columns df [] = .ok df := by
  constructor
  · unfold map_columns
    rw [if_neg (by simp [List.isEmpty_iff, hne])]
    have hray : ms.any mapEntryRaises = false := by
      rw [List.any_eq_false]
      intro m hm
      rcases hwf m hm with ⟨hd, hs⟩
      unfold mapEntryRaises
      rw [hd]
      rcases hmk : m.fromKey with _ | o
      · rw [hmk] at hs
        simp at hs
      · simp
    rw [hray]
    have hsel : selectedFroms df ms = [] := by
      unfold selectedFroms
      rw [List.filterMap_eq_nil]
      intro m hm
      rcases hmk : m.fromKey with _ | o
      · simp
      · have hh := hmiss m hm
        rw [hmk] at hh
        simp only [Option.getD_some] at hh
        simp [hh]
    simp [hsel]
  · rfl

/-- C5 witness: one entry whose `from` column `"z"` is absent. -/
theorem claim_C5_witness :
    map_columns [("a", [Cell.int 1])] [⟨true, some "z", some "x"⟩]
      = .ok [("a", [Cell.int 1])] ∧
    map_columns [("a", [Cell.int 1])] [] = .ok [("a", [Cell.int 1])] :=
  claim_C5_unresolved_mappings_identity [("a", [Cell.int 1])]
    [⟨true, some "z", some "x"⟩] (by decide) (by decide) (by decide)

/-! ### Claim theorems: pipeline orchestration (C6) -/

/-- C6: `transform_data` is exactly the fixed composition mapping →
filtering → synthesis → coercion (an absent section behaving as the empty
one), each stage applied to the empty configuration is the identity, and
a missing `transformations` object passes the dataset through.  Stages
are functions of the configuration only — nothing about the dataset's
content can reorder or skip them. -/
theorem claim_C6_stage_order (df : Df) (o : TransformOptions) :
    (transform_data df (some o) =
      match map_columns df ((o.column_mappings).getD []) with
      | .error e => .error e
      | .ok d1 =>
        .ok (convert_data_types
              (add_new_columns (filter_rows d1 ((o.filters).getD []))
                ((o.new_columns).getD []))
              ((o.data_type_conversions).getD []))) ∧
    map_columns df [] = .ok df ∧
    filter_rows df [] = df ∧
    add_new_columns df [] = df ∧
    convert_data_types df [] = df ∧
    transform_data df none = .ok df := by
  refine ⟨?_, rfl, rfl, rfl, rfl, rfl⟩
  rcases o with ⟨cm, fs, nc, dtc, other⟩
  cases cm <;> cases fs <;> cases nc <;> cases dtc <;> cases other <;> rfl

/-! ### Claim theorems: missing-column tolerance (C7) -/

theorem names_setCol_of_hasCol (d : Df) (n : String) (col : List Cell)
    (h : Df.hasCol d n = true) : Df.names (Df.setCol d n col) = Df.names d := by
  unfold Df.setCol
  rw [if_pos h]
  unfold Df.names
  rw [List.map_map]
  apply List.map_congr_left
  intro p _
  by_cases hp : p.1 = n
  · simp [hp]
  · simp [Function.comp, show (p.1 == n) = false by simpa using hp]

theorem hasCol_congr_names (d1 d2 : Df) (c : String) (h : Df.names d1 = Df.names d2) :
    Df.hasCol d1 c = Df.hasCol d2 c := by
  have h1 := hasCol_iff_names d1 c
  rw [h, ← hasCol_iff_names d2 c] at h1
  cases hx : Df.hasCol d1 c <;> cases hy : Df.hasCol d2 c <;> simp_all

theorem names_convert_foldl (df : Df) (tcs : List (String × String)) :
    Df.names
        (tcs.foldl
          (fun d p =>
            if Df.hasCol d p.1 then Df.setCol d p.1 (convertCol p.2 (Df.getColD d p.1))
            else d)
          df)
      = Df.names df := by
  induction tcs generalizing df with
  | nil => rfl
  | cons t ts ih =>
    rw [List.foldl_cons, ih]
    by_cases h : Df.hasCol df t.1 = true
    · rw [if_pos h, names_setCol_of_hasCol df t.1 _ h]
    · rw [if_neg h]

theorem applyFilter_skip_missing (D : Df) (c : String) (cond : Option String) (v : FVal)
    (h : Df.hasCol D c = false) : applyFilter D ⟨some c, cond, v⟩ = D := by
  unfold applyFilter
  simp [h]

theorem applyNewCol_skip_copy (D : Df) (e : NewColEntry) (s : String)
    (hop : e.operation = some "copy") (hsc : e.source_column = some s)
    (h : Df.hasCol D s = false) : applyNewCol D e = D := by
  rcases e with ⟨nm, op, src, sep, ex, sc, v⟩
  simp only at hop hsc
  subst hop
  subst hsc
  unfold applyNewCol
  split
  · rfl
  · simp [h]

theorem applyNewCol_skip_concat (D : Df) (e : NewColEntry) (s : String)
    (hop : e.operation = some "concat") (hsc : s ∈ (e.sources).getD [])
    (h : Df.hasCol D s = false) : applyNewCol D e = D := by
  rcases e with ⟨nm, op, src, sep, ex, sc, v⟩
  simp only at hop hsc
  subst hop
  unfold applyNewCol
  split
  · rfl
  · have hany : (src.getD []).any (fun s0 => !Df.hasCol D s0) = true := by
      rw [List.any_eq_true]
      exact ⟨s, hsc, by simp [h]⟩
    simp [hany]

/-- C7: a filter entry, a synthesis entry (`copy` or `concat`), or a type
conversion entry that references a column absent from the dataset it is
evaluated against is skipped (without raising — the functions are total
on these inputs), and the remaining entries of the stage are applied as
if the offending entry were not there. -/
theorem claim_C7_missing_column_skip :
    (∀ (df : Df) (xs ys : List FilterEntry) (c : String) (cond : Option String) (v : FVal),
      Df.hasCol df c = false →
      filter_rows df (xs ++ ⟨some c, cond, v⟩ :: ys) = filter_rows df (xs ++ ys)) ∧
    (∀ (df : Df) (xs ys : List NewColEntry) (e : NewColEntry) (s : String),
      e.operation = some "copy" → e.source_column = some s →
      Df.hasCol (add_new_columns df xs) s = false →
      add_new_columns df (xs ++ e :: ys) = add_new_columns df (xs ++ ys)) ∧
    (∀ (df : Df) (xs ys : List NewColEntry) (e : NewColEntry) (s : String),
      e.operation = some "concat" → s ∈ (e.sources).getD [] →
      Df.hasCol (add_new_columns df xs) s = false →
      add_new_columns df (xs ++ e :: ys) = add_new_columns df (xs ++ ys)) ∧
    (∀ (df : Df) (xs ys : List (String × String)) (c t : String),
      Df.hasCol df c = false →
      convert_data_types df (xs ++ (c, t) :: ys) = convert_data_types df (xs ++ ys)) := by
  refine ⟨?_, ?_, ?_, ?_⟩
  · intro df xs ys c cond v h
    rw [filter_rows_eq_foldl, filter_rows_eq_foldl, List.foldl_append, List.foldl_append,
      List.foldl_cons]
    have hc : Df.hasCol (xs.foldl applyFilter df) c = false := by
      rw [hasCol_filter_foldl]
      exact h
    rw [applyFilter_skip_missing _ c cond v hc]
  · intro df xs ys e s hop hsc h
    rw [add_new_columns_eq_foldl] at h
    rw [add_new_columns_eq_foldl, add_new_columns_eq_foldl, List.foldl_append,
      List.foldl_append, List.foldl_cons, applyNewCol_skip_copy _ e s hop hsc h]
  · intro df xs ys e s hop hsc h
    rw [add_new_columns_eq_foldl] at h
    rw [add_new_columns_eq_foldl, add_new_columns_eq_foldl, List.foldl_append,
      List.foldl_append, List.foldl_cons, applyNewCol_skip_concat _ e s hop hsc h]
  · intro df xs ys c t h
    rw [convert_data_types_eq_foldl, convert_data_types_eq_foldl, List.foldl_append,
      List.foldl_append, List.foldl_cons]
    have hc : Df.hasCol
        (xs.foldl
          (fun d p =>
            if Df.hasCol d p.1 then Df.setCol d p.1 (convertCol p.2 (Df.getColD d p.1))
            else d)
          df) c = false := by
      rw [hasCol_congr_names _ df c (names_convert_foldl df xs)]
      exact h
    simp [hc]

/-- C7 witness: each of the four entry kinds referencing the absent
column `"z"` of the dataset `[("a", [1])]` leaves the stage's result as
if the entry were absent. -/
theorem claim_C7_witness :
    filter_rows [("a", [Cell.int 1])]
        [⟨some "z", some ">", FVal.scalar (Cell.int 0)⟩] = [("a", [Cell.int 1])] ∧
    add_new_columns [("a", [Cell.int 1])]
        [⟨some "b", some "copy", none, none, none, some "z", none⟩,
         ⟨some "d", some "copy", none, none, none, some "a", none⟩]
      = add_new_columns [("a", [Cell.int 1])]
        [⟨some "d", some "copy", none, none, none, some "a", none⟩] ∧
    add_new_columns [("a", [Cell.int 1])]
        [⟨some "b", some "concat", some ["a", "z"], some "-", none, none, none⟩]
      = [("a", [Cell.int 1])] ∧
    convert_data_types [("a", [Cell.int 1])] [("z", "int"), ("a", "str")]
      = convert_data_types [("a", [Cell.int 1])] [("a", "str")] := by
  refine ⟨?_, ?_, ?_, ?_⟩
  · exact claim_C7_missing_column_skip.1 [("a", [Cell.int 1])] [] [] "z" (some ">")
      (FVal.scalar (Cell.int 0)) rfl
  · exact claim_C7_missing_column_skip.2.1 [("a", [Cell.int 1])] []
      [⟨some "d", some "copy", none, none, none, some "a", none⟩]
      ⟨some "b", some "copy", none, none, none, some "z", none⟩ "z" rfl rfl rfl
  · exact claim_C7_missing_column_skip.2.2.1 [("a", [Cell.int 1])] [] []
      ⟨some "b", some "concat", some ["a", "z"], some "-", none, none, none⟩ "z" rfl
      (by decide) rfl
  · exact claim_C7_missing_column_skip.2.2.2 [("a", [Cell.int 1])] [] [("a", "str")]
      "z" "int" rfl

/-! ### Claim theorems: the dataset invariant (C4) -/

theorem applyMask_length (mask : List Bool) (c1 c2 : List Cell)
    (h : c1.length = c2.length) :
    (applyMask mask c1).length = (applyMask mask c2).length := by
  induction mask generalizing c1 c2 with
  | nil => rfl
  | cons b ms ih =>
    cases c1 with
    | nil =>
      cases c2 with
      | nil => rfl
      | cons y ys => simp at h
    | cons x xs =>
      cases c2 with
      | nil => simp at h
      | cons y ys =>
        cases b <;> simp [applyMask, ih xs ys (by simpa using h)]

theorem DfOk_maskDf (df : Df) (mask : List Bool) (h : DfOk df) : DfOk (maskDf df mask) := by
  obtain ⟨hn, hl⟩ := h
  constructor
  · rw [names_maskDf]
    exact hn
  · intro p hp
    unfold maskDf at hp
    rw [List.mem_map] at hp
    obtain ⟨q, hq, rfl⟩ := hp
    cases df with
    | nil => cases hq
    | cons q0 rest =>
      have h0 : q0.2.length = Df.rowCount (q0 :: rest) := hl q0 (by simp)
      have hqlen : q.2.length = Df.rowCount (q0 :: rest) := hl q hq
      show (applyMask mask q.2).length = Df.rowCount (maskDf (q0 :: rest) mask)
      have hr : Df.rowCount (maskDf (q0 :: rest) mask) = (applyMask mask q0.2).length := rfl
      rw [hr]
      exact applyMask_length mask q.2 q0.2 (by rw [hqlen, h0])

theorem DfOk_applyFilter (df : Df) (f : FilterEntry) (h : DfOk df) :
    DfOk (applyFilter df f) := by
  unfold applyFilter
  cases f.column with
  | none => exact h
  | some c =>
    dsimp only
    split
    · exact h
    · split
      · exact h
      · split
        · exact DfOk_maskDf df _ h
        · exact h

theorem DfOk_filter_rows (df : Df) (fs : List FilterEntry) (h : DfOk df) :
    DfOk (filter_rows df fs) := by
  rw [filter_rows_eq_foldl]
  induction fs generalizing df with
  | nil => exact h
  | cons f fs ih => exact ih (applyFilter df f) (DfOk_applyFilter df f h)

theorem getColD_length_of_Ok (df : Df) (c : String) (hOk : DfOk df)
    (h : Df.hasCol df c = true) : (Df.getColD df c).length = Df.rowCount df := by
  unfold Df.getColD Df.getCol
  rcases hf : df.find? (fun p => p.1 == c) with _ | p
  · exfalso
    rw [List.find?_eq_none] at hf
    unfold Df.hasCol at h
    rw [List.any_eq_true] at h
    obtain ⟨x, hx, hpx⟩ := h
    exact absurd hpx (by simpa using hf x hx)
  · rw [hf]
    simp only [Option.map_some', Option.getD_some]
    exact hOk.2 p (List.mem_of_find?_eq_some hf)

theorem DfOk_setCol (df : Df) (n : String) (col : List Cell)
    (hlen : col.length = Df.rowCount df) (h : DfOk df) : DfOk (Df.setCol df n col) := by
  obtain ⟨hn, hl⟩ := h
  unfold Df.setCol
  by_cases hc : Df.hasCol df n = true
  · rw [if_pos hc]
    constructor
    · have he := names_setCol_of_hasCol df n col hc
      unfold Df.setCol at he
      rw [if_pos hc] at he
      rw [he]
      exact hn
    · intro p hp
      rw [List.mem_map] at hp
      obtain ⟨q, hq, rfl⟩ := hp
      cases df with
      | nil => cases hq
      | cons q0 rest =>
        have hr : Df.rowCount
            (List.map (fun p => if p.1 == n then (p.1, col) else p) (q0 :: rest))
            = (if (q0.1 == n) = true then col else q0.2).length := by
          rw [List.map_cons]
          cases hq0 : (q0.1 == n)
          · rw [if_neg (by simp), if_neg (by simp)]
            rfl
          · rw [if_pos rfl, if_pos rfl]
            rfl
        rw [hr]
        have e0 : (if (q0.1 == n) = true then col else q0.2).length
            = Df.rowCount (q0 :: rest) := by
          cases hq0 : (q0.1 == n)
          · rw [if_neg (by simp)]
            exact hl q0 (by simp)
          · rw [if_pos rfl]
            exact hlen
        rw [e0]
        cases hq1 : (q.1 == n)
        · rw [if_neg (by simp)]
          exact hl q hq
        · rw [if_pos rfl]
          exact hlen
  · rw [if_neg hc]
    constructor
    · unfold Df.names
      rw [List.map_append, List.nodup_append]
      refine ⟨hn, List.nodup_singleton n, ?_⟩
      intro a ha hb
      rw [List.map_singleton, List.mem_singleton] at hb
      subst hb
      exact hc ((hasCol_iff_names df a).mpr ha)
    · intro p hp
      rw [List.mem_append] at hp
      cases df with
      | nil =>
        rcases hp with h1 | h2
        · cases h1
        · rw [List.mem_singleton] at h2
          subst h2
          rfl
      | cons q0 rest =>
        have hr : Df.rowCount ((q0 :: rest) ++ [(n, col)]) = Df.rowCount (q0 :: rest) := rfl
        rw [hr]
        rcases hp with h1 | h2
        · exact hl p h1
        · rw [List.mem_singleton] at h2
          subst h2
          exact hlen

theorem mapM_some_length {α β : Type} (l : List α) (f : α → Option β) (res : List β)
    (h : l.mapM f = some res) : res.length = l.length := by
  induction l generalizing res with
  | nil =>
    simp only [List.mapM_nil, pure, Option.some.injEq] at h
    subst h
    rfl
  | cons a l ih =>
    rw [List.mapM_cons] at h
    cases hfa : f a with
    | none => rw [hfa] at h; simp at h
    | some x =>
      rw [hfa] at h
      cases hml : l.mapM f with
      | none => rw [hml] at h; simp at h
      | some xs =>
        rw [hml] at h
        simp at h
        subst h
        simp [ih xs hml]

theorem concatCol_length (df : Df) (srcs : List String) (sep : String) :
    (concatCol df srcs sep).length = Df.rowCount df := by
  unfold concatCol
  simp

theorem evalCol_some_length (df : Df) (e : Expr) (col : List Cell)
    (h : evalCol df e = some col) : col.length = Df.rowCount df := by
  unfold evalCol at h
  split at h
  · cases h
  · have := mapM_some_length _ _ _ h
    rw [this, List.length_range]

theorem convertCol_length (ty : String) (col : List Cell) :
    (convertCol ty col).length = col.length := by
  unfold convertCol
  split
  · rcases h : intCoerceCol col with _ | res
    · simp
    · simp only [Option.getD_some]
      unfold intCoerceCol at h
      have := mapM_some_length _ _ _ h
      rw [this, List.length_map]
  · split
    · simp
    · split
      · simp [astypeStr]
      · split
        · simp
        · split
          · simp
          · rfl

theorem DfOk_applyNewCol (df : Df) (e : NewColEntry) (h : DfOk df) :
    DfOk (applyNewCol df e) := by
  unfold applyNewCol
  split
  · exact h
  · dsimp only
    split
    · -- concat
      split
      · exact h
      · exact DfOk_setCol df _ _ (concatCol_length df _ _) h
    · -- eval
      split
      · exact h
      · split
        · exact DfOk_setCol df _ _ (evalCol_some_length df _ _ (by assumption)) h
        · exact h
    · -- copy
      split
      · exact h
      · split
        · exact h
        · split
          · exact DfOk_setCol df _ _ (getColD_length_of_Ok df _ h (by assumption)) h
          · exact h
    · -- default_value
      split
      · exact h
      · exact DfOk_setCol df _ _ (List.length_replicate _ _) h
    · exact h

theorem DfOk_add_new_columns (df : Df) (ds : List NewColEntry) (h : DfOk df) :
    DfOk (add_new_columns df ds) := by
  rw [add_new_columns_eq_foldl]
  induction ds generalizing df with
  | nil => exact h
  | cons d ds ih => exact ih (applyNewCol df d) (DfOk_applyNewCol df d h)

theorem DfOk_convert_data_types (df : Df) (tcs : List (String × String)) (h : DfOk df) :
    DfOk (convert_data_types df tcs) := by
  rw [convert_data_types_eq_foldl]
  induction tcs generalizing df with
  | nil => exact h
  | cons t ts ih =>
    rw [List.foldl_cons]
    apply ih
    by_cases hc : Df.hasCol df t.1 = true
    · rw [if_pos hc]
      refine DfOk_setCol df _ _ ?_ h
      rw [convertCol_length, getColD_length_of_Ok df _ h hc]
    · rw [if_neg hc]
      exact h

theorem selectedFroms_mem (df : Df) (ms : List MapEntry) (o : String)
    (h : o ∈ selectedFroms df ms) :
    (∃ m ∈ ms, m.fromKey = some o) ∧ Df.hasCol df o = true := by
  unfold selectedFroms at h
  rw [List.mem_filterMap] at h
  obtain ⟨m, hm, hmo⟩ := h
  rcases hf : m.fromKey with _ | o2
  · rw [hf] at hmo
    simp at hmo
  · rw [hf] at hmo
    dsimp only at hmo
    by_cases hc : Df.hasCol df o2 = true
    · rw [if_pos hc] at hmo
      injection hmo with ho
      subst ho
      exact ⟨⟨m, hm, hf⟩, hc⟩
    · rw [if_neg hc] at hmo
      simp at hmo

theorem selectedFroms_nodup (df : Df) (ms : List MapEntry)
    (hnd : (ms.map MapEntry.fromKey).Nodup) : (selectedFroms df ms).Nodup := by
  induction ms with
  | nil => exact List.nodup_nil
  | cons m rest ih =>
    rw [List.map_cons, List.nodup_cons] at hnd
    obtain ⟨hnotin, hnd2⟩ := hnd
    rcases hf : m.fromKey with _ | o
    · have he : selectedFroms df (m :: rest) = selectedFroms df rest := by
        unfold selectedFroms
        rw [List.filterMap_cons_none]
        simp [hf]
      rw [he]
      exact ih hnd2
    · by_cases hc : Df.hasCol df o = true
      · have he : selectedFroms df (m :: rest) = o :: selectedFroms df rest := by
          unfold selectedFroms
          rw [List.filterMap_cons_some]
          simp [hf, hc]
        rw [he, List.nodup_cons]
        refine ⟨?_, ih hnd2⟩
        intro hmem
        obtain ⟨⟨m2, hm2, hf2⟩, _⟩ := selectedFroms_mem df rest o hmem
        exact hnotin (List.mem_map.mpr ⟨m2, hm2, by rw [hf2, hf]⟩)
      · have he : selectedFroms df (m :: rest) = selectedFroms df rest := by
          unfold selectedFroms
          rw [List.filterMap_cons_none]
          simp [hf, hc]
        rw [he]
        exact ih hnd2

theorem renameStep_other (df : Df) (acc : String → Option String) (m : MapEntry)
    (o : String) (h : m.fromKey ≠ some o) : renameStep df acc m o = acc o := by
  rcases m with ⟨d, fk, tk⟩
  have h2 : fk ≠ some o := h
  unfold renameStep
  cases d
  · rfl
  · cases fk with
    | none => cases tk <;> rfl
    | some o2 =>
      cases tk with
      | none => rfl
      | some n2 =>
        dsimp only
        split
        · have ho : (o == o2) = false := by
            have hne : o ≠ o2 := by
              intro he
              exact h2 (by rw [he])
            simpa using hne
          simp [ho]
        · rfl

theorem buildRenameAux_no_contrib (df : Df) (ms : List MapEntry)
    (acc : String → Option String) (o : String)
    (h : ∀ m ∈ ms, m.fromKey ≠ some o) :
    (ms.foldl (renameStep df) acc) o = acc o := by
  induction ms generalizing acc with
  | nil => rfl
  | cons m rest ih =>
    rw [List.foldl_cons]
    have hrest : ∀ m2 ∈ rest, m2.fromKey ≠ some o := fun m2 hm2 => h m2 (by simp [hm2])
    rw [ih _ hrest]
    exact renameStep_other df acc m o (h m (by simp))

theorem buildRenameAux_contrib (df : Df) (ms : List MapEntry)
    (acc : String → Option String) (o n : String) (m : MapEntry)
    (hm : m ∈ ms) (hd : m.isDict = true) (hf : m.fromKey = some o)
    (ht : m.toKey = some n) (hnd : (ms.map MapEntry.fromKey).Nodup) :
    (ms.foldl (renameStep df) acc) o =
      if Df.hasCol df o && o != n then some n else acc o := by
  induction ms generalizing acc with
  | nil => cases hm
  | cons m0 rest ih =>
    rw [List.map_cons, List.nodup_cons] at hnd
    obtain ⟨hnotin, hnd2⟩ := hnd
    rw [List.foldl_cons]
    rcases List.mem_cons.mp hm with rfl | hm2
    · have hrest : ∀ m2 ∈ rest, m2.fromKey ≠ some o := by
        intro m2 hm2 he
        exact hnotin (List.mem_map.mpr ⟨m2, hm2, by rw [he, hf]⟩)
      rw [buildRenameAux_no_contrib df rest _ o hrest]
      rcases m with ⟨d, fk, tk⟩
      have hd2 : d = true := hd
      have hf2 : fk = some o := hf
      have ht2 : tk = some n := ht
      subst hd2
      subst hf2
      subst ht2
      unfold renameStep
      dsimp only
      split
      · simp
      · rfl
    · have hne : m0.fromKey ≠ some o := by
        intro he
        exact hnotin (List.mem_map.mpr ⟨m, hm2, by rw [hf, ← he]⟩)
      rw [ih (renameStep df acc m0) hm2 hnd2]
      rw [renameStep_other df acc m0 o hne]

theorem effName_eq_toKey (df : Df) (ms : List MapEntry) (o n : String) (m : MapEntry)
    (hm : m ∈ ms) (hd : m.isDict = true) (hf : m.fromKey = some o)
    (ht : m.toKey = some n) (hnd : (ms.map MapEntry.fromKey).Nodup)
    (hc : Df.hasCol df o = true) :
    (buildRenameMap df ms o).getD o = n := by
  unfold buildRenameMap
  rw [buildRenameAux_contrib df ms _ o n m hm hd hf ht hnd]
  rw [hc]
  cases hon : (o != n) with
  | true => simp
  | false =>
    have : o = n := by simpa using hon
    simp [this]

theorem map_columns_preserves_Ok (df : Df) (ms : List MapEntry) (d2 : Df)
    (hOk : DfOk df)
    (hwf : ∀ m ∈ ms, m.isDict = true ∧ m.fromKey.isSome = true ∧ m.toKey.isSome = true)
    (hndf : (ms.map MapEntry.fromKey).Nodup)
    (hndt : (ms.map MapEntry.toKey).Nodup)
    (hres : map_columns df ms = .ok d2) : DfOk d2 := by
  unfold map_columns at hres
  by_cases hemp : ms.isEmpty = true
  · rw [if_pos hemp] at hres
    injection hres with hd
    rw [← hd]
    exact hOk
  · rw [if_neg hemp] at hres
    have hray : ms.any mapEntryRaises = false := by
      rw [List.any_eq_false]
      intro m hm
      rcases hwf m hm with ⟨hd, hs, _⟩
      unfold mapEntryRaises
      rw [hd]
      rcases hmk : m.fromKey with _ | o
      · rw [hmk] at hs
        simp at hs
      · simp
    rw [hray] at hres
    simp only [Bool.false_eq_true, if_false] at hres
    by_cases hsel : (selectedFroms df ms).isEmpty = true
    · rw [if_pos hsel] at hres
      injection hres with hd
      rw [← hd]
      exact hOk
    · rw [if_neg hsel] at hres
      injection hres with hd
      rw [← hd]
      -- the effective output name of a selected column
      have heff : ∀ o ∈ selectedFroms df ms, ∃ m ∈ ms,
          m.fromKey = some o ∧ (buildRenameMap df ms o).getD o = m.toKey.getD "" := by
        intro o ho
        obtain ⟨⟨m, hm, hf⟩, hc⟩ := selectedFroms_mem df ms o ho
        rcases hwf m hm with ⟨hdict, _, hts⟩
        rcases htk : m.toKey with _ | n
        · rw [htk] at hts
          simp at hts
        · refine ⟨m, hm, hf, ?_⟩
          rw [htk]
          simp only [Option.getD_some]
          exact effName_eq_toKey df ms o n m hm hdict hf htk hndf hc
      constructor
      · -- names are the selected entries' `to` names, pairwise distinct
        unfold Df.names
        rw [List.map_map]
        have hinj : ∀ o1 ∈ selectedFroms df ms, ∀ o2 ∈ selectedFroms df ms,
            (buildRenameMap df ms o1).getD o1 = (buildRenameMap df ms o2).getD o2 →
            o1 = o2 := by
          intro o1 h1 o2 h2 he
          obtain ⟨m1, hm1, hf1, he1⟩ := heff o1 h1
          obtain ⟨m2, hm2, hf2, he2⟩ := heff o2 h2
          rw [he1, he2] at he
          rcases hwf m1 hm1 with ⟨_, _, ht1⟩
          rcases hwf m2 hm2 with ⟨_, _, ht2⟩
          rcases hk1 : m1.toKey with _ | n1
          · rw [hk1] at ht1
            simp at ht1
          · rcases hk2 : m2.toKey with _ | n2
            · rw [hk2] at ht2
              simp at ht2
            · rw [hk1, hk2] at he
              simp only [Option.getD_some] at he
              subst he
              have hmm : m1 = m2 := by
                have := List.inj_on_of_nodup_map hndt hm1 hm2
                exact this (by rw [hk1, hk2])
              rw [hmm] at hf1
              rw [hf1] at hf2
              injection hf2
          -- end hinj
        exact List.Nodup.map_on
          (by
            intro x hx y hy hxy
            exact hinj x hx y hy hxy)
          (selectedFroms_nodup df ms hndf)
      · intro p hp
        rw [List.mem_map] at hp
        obtain ⟨o, ho, rfl⟩ := hp
        dsimp only
        have hc := (selectedFroms_mem df ms o ho).2
        have hlen := getColD_length_of_Ok df o hOk hc
        rcases hsl : selectedFroms df ms with _ | ⟨o0, os⟩
        · rw [hsl] at ho
          cases ho
        · have hc0 : Df.hasCol df o0 = true := by
            refine (selectedFroms_mem df ms o0 ?_).2
            rw [hsl]
            simp
          show (Df.getColD df o).length = (Df.getColD df o0).length
          rw [hlen, getColD_length_of_Ok df o0 hOk hc0]

/-- C4 counterpart, amended: filtering, synthesis and coercion preserve
the dataset invariant unconditionally; column mapping preserves it
provided its entries are well-formed, no `from` name is repeated, and the
`to` names are pairwise distinct (the counterexample shows that a
repeated `from` produces duplicate output names). -/
theorem claim_C4_invariant_amended :
    (∀ (df : Df) (ms : List MapEntry) (d2 : Df),
      DfOk df →
      (∀ m ∈ ms, m.isDict = true ∧ m.fromKey.isSome = true ∧ m.toKey.isSome = true) →
      (ms.map MapEntry.fromKey).Nodup →
      (ms.map MapEntry.toKey).Nodup →
      map_columns df ms = .ok d2 → DfOk d2) ∧
    (∀ (df : Df) (fs : List FilterEntry), DfOk df → DfOk (filter_rows df fs)) ∧
    (∀ (df : Df) (ds : List NewColEntry), DfOk df → DfOk (add_new_columns df ds)) ∧
    (∀ (df : Df) (tcs : List (String × String)), DfOk df → DfOk (convert_data_types df tcs)) :=
  ⟨map_columns_preserves_Ok, DfOk_filter_rows, DfOk_add_new_columns, DfOk_convert_data_types⟩

/-- C4 amended, witness: a two-column dataset pushed through one concrete
instance of each stage. -/
theorem claim_C4_invariant_amended_witness :
    DfOk [("x", [Cell.int 1]), ("b", [Cell.int 2])] ∧
    DfOk (filter_rows [("a", [Cell.int 1]), ("b", [Cell.int 2])]
      [⟨some "a", some ">", FVal.scalar (Cell.int 0)⟩]) ∧
    DfOk (add_new_columns [("a", [Cell.int 1]), ("b", [Cell.int 2])]
      [⟨some "c", some "copy", none, none, none, some "a", none⟩]) ∧
    DfOk (convert_data_types [("a", [Cell.int 1]), ("b", [Cell.int 2])] [("a", "str")]) := by
  refine ⟨?_, ?_, ?_, ?_⟩
  · exact claim_C4_invariant_amended.1 [("a", [Cell.int 1]), ("b", [Cell.int 2])]
      [⟨true, some "a", some "x"⟩, ⟨true, some "b", some "b"⟩]
      [("x", [Cell.int 1]), ("b", [Cell.int 2])] (by decide) (by decide) (by decide)
      (by decide) rfl
  · exact claim_C4_invariant_amended.2.1 [("a", [Cell.int 1]), ("b", [Cell.int 2])]
      [⟨some "a", some ">", FVal.scalar (Cell.int 0)⟩] (by decide)
  · exact claim_C4_invariant_amended.2.2.1 [("a", [Cell.int 1]), ("b", [Cell.int 2])]
      [⟨some "c", some "copy", none, none, none, some "a", none⟩] (by decide)
  · exact claim_C4_invariant_amended.2.2.2 [("a", [Cell.int 1]), ("b", [Cell.int 2])]
      [("a", "str")] (by decide)

/-! ### Claim theorems: the caller's object is never mutated (C9) -/

theorem heapRead_write_ne (h : Heap) (r i : Nat) (d : Df) (hne : i ≠ r) :
    heapRead (heapWrite h r d) i = heapRead h i := by
  unfold heapRead heapWrite List.getD
  rw [List.get?_set_ne _ _ (by omega)]

theorem heapRead_append_lt (h : Heap) (d : Df) (i : Nat) (hi : i < h.length) :
    heapRead (h ++ [d]) i = heapRead h i := by
  unfold heapRead List.getD
  rw [List.get?_append hi]

theorem filter_rows_heap_frame (h : Heap) (r : Nat) (fs : List FilterEntry) (n : Nat)
    (hh : n ≤ h.length) (hr : n ≤ r) :
    n ≤ (filter_rows_heap h r fs).1.length ∧ n ≤ (filter_rows_heap h r fs).2 ∧
    ∀ i < n, heapRead (filter_rows_heap h r fs).1 i = heapRead h i := by
  unfold filter_rows_heap
  split
  · exact ⟨hh, hr, fun i _ => rfl⟩
  · dsimp only [heapAlloc]
    refine ⟨?_, hh, ?_⟩
    · rw [List.length_append]
      omega
    · intro i hi
      exact heapRead_append_lt h _ i (by omega)

theorem add_new_columns_heap_frame (h : Heap) (r : Nat) (ds : List NewColEntry) (n : Nat)
    (hh : n ≤ h.length) (hr : n ≤ r) :
    n ≤ (add_new_columns_heap h r ds).1.length ∧ n ≤ (add_new_columns_heap h r ds).2 ∧
    ∀ i < n, heapRead (add_new_columns_heap h r ds).1 i = heapRead h i := by
  unfold add_new_columns_heap
  split
  · exact ⟨hh, hr, fun i _ => rfl⟩
  · refine ⟨?_, hr, ?_⟩
    · unfold heapWrite
      rw [List.length_set]
      exact hh
    · intro i hi
      exact heapRead_write_ne h r i _ (by omega)

theorem convert_data_types_heap_frame (h : Heap) (r : Nat) (tcs : List (String × String))
    (n : Nat) (hh : n ≤ h.length) (hr : n ≤ r) :
    n ≤ (convert_data_types_heap h r tcs).1.length ∧
    n ≤ (convert_data_types_heap h r tcs).2 ∧
    ∀ i < n, heapRead (convert_data_types_heap h r tcs).1 i = heapRead h i := by
  unfold convert_data_types_heap
  split
  · exact ⟨hh, hr, fun i _ => rfl⟩
  · refine ⟨?_, hr, ?_⟩
    · unfold heapWrite
      rw [List.length_set]
      exact hh
    · intro i hi
      exact heapRead_write_ne h r i _ (by omega)

theorem map_columns_heap_frame (h : Heap) (r : Nat) (ms : List MapEntry) (n : Nat)
    (hh : n ≤ h.length) (hr : n ≤ r) :
    n ≤ (map_columns_heap h r ms).1.length ∧
    (∀ r2, (map_columns_heap h r ms).2 = .ok r2 → n ≤ r2) ∧
    ∀ i < n, heapRead (map_columns_heap h r ms).1 i = heapRead h i := by
  unfold map_columns_heap
  split
  · refine ⟨hh, ?_, fun i _ => rfl⟩
    intro r2 h2
    injection h2 with h3
    omega
  · split
    · refine ⟨hh, ?_, fun i _ => rfl⟩
      intro r2 h2
      cases h2
    · split
      · refine ⟨hh, ?_, fun i _ => rfl⟩
        intro r2 h2
        injection h2 with h3
        omega
      · dsimp only [heapAlloc]
        refine ⟨?_, ?_, ?_⟩
        · rw [List.length_append]
          omega
        · intro r2 h2
          injection h2 with h3
          omega
        · intro i hi
          exact heapRead_append_lt h _ i (by omega)

theorem transform_tail_heap_frame (h : Heap) (r1 : Nat) (o : TransformOptions) (n : Nat)
    (hh : n ≤ h.length) (hr : n ≤ r1) :
    n ≤ (transform_tail_heap h r1 o).1.length ∧ n ≤ (transform_tail_heap h r1 o).2 ∧
    ∀ i < n, heapRead (transform_tail_heap h r1 o).1 i = heapRead h i := by
  unfold transform_tail_heap
  rcases hfs : o.filters with _ | fs <;> rcases hnc : o.new_columns with _ | ds <;>
    rcases hdtc : o.data_type_conversions with _ | tcs <;> dsimp only
  · exact ⟨hh, hr, fun i _ => rfl⟩
  · obtain ⟨c1, c2, c3⟩ := convert_data_types_heap_frame h r1 tcs n hh hr
    exact ⟨c1, c2, c3⟩
  · obtain ⟨b1, b2, b3⟩ := add_new_columns_heap_frame h r1 ds n hh hr
    exact ⟨b1, b2, b3⟩
  · obtain ⟨b1, b2, b3⟩ := add_new_columns_heap_frame h r1 ds n hh hr
    obtain ⟨c1, c2, c3⟩ := convert_data_types_heap_frame _ _ tcs n b1 b2
    exact ⟨c1, c2, fun i hi => (c3 i hi).trans (b3 i hi)⟩
  · obtain ⟨a1, a2, a3⟩ := filter_rows_heap_frame h r1 fs n hh hr
    exact ⟨a1, a2, a3⟩
  · obtain ⟨a1, a2, a3⟩ := filter_rows_heap_frame h r1 fs n hh hr
    obtain ⟨c1, c2, c3⟩ := convert_data_types_heap_frame _ _ tcs n a1 a2
    exact ⟨c1, c2, fun i hi => (c3 i hi).trans (a3 i hi)⟩
  · obtain ⟨a1, a2, a3⟩ := filter_rows_heap_frame h r1 fs n hh hr
    obtain ⟨b1, b2, b3⟩ := add_new_columns_heap_frame _ _ ds n a1 a2
    exact ⟨b1, b2, fun i hi => (b3 i hi).trans (a3 i hi)⟩
  · obtain ⟨a1, a2, a3⟩ := filter_rows_heap_frame h r1 fs n hh hr
    obtain ⟨b1, b2, b3⟩ := add_new_columns_heap_frame _ _ ds n a1 a2
    obtain ⟨c1, c2, c3⟩ := convert_data_types_heap_frame _ _ tcs n b1 b2
    exact ⟨c1, c2, fun i hi => ((c3 i hi).trans (b3 i hi)).trans (a3 i hi)⟩

/-- C9: whatever the configuration, `transform_data` leaves the dataset
object handed to it unchanged — it copies the frame up front and the
stages read from or mutate only that working copy (or fresh frames), so
after the call the caller's object still holds its original columns and
rows; only the returned frame reflects the transformations.  This also
holds when the call raises (the mapping-stage exception). -/
theorem claim_C9_input_unchanged (h : Heap) (r : Nat) (topts : Option TransformOptions)
    (hr : r < h.length) :
    heapRead (transform_data_heap h r topts).1 r = heapRead h r := by
  cases topts with
  | none => rfl
  | some o =>
    unfold transform_data_heap
    dsimp only
    split
    · rfl
    · dsimp only [heapAlloc]
      have hbase : ∀ i < h.length, heapRead (h ++ [heapRead h r]) i = heapRead h i :=
        fun i hi => heapRead_append_lt h _ i hi
      have hlen1 : h.length ≤ (h ++ [heapRead h r]).length := by
        rw [List.length_append]
        omega
      rcases hcm : o.column_mappings with _ | ms <;> try dsimp only
      · obtain ⟨t1, t2, t3⟩ := transform_tail_heap_frame (h ++ [heapRead h r]) h.length o
          h.length hlen1 (le_refl _)
        rw [t3 r hr]
        exact hbase r hr
      · obtain ⟨m1, m2, m3⟩ := map_columns_heap_frame (h ++ [heapRead h r]) h.length ms
          h.length hlen1 (le_refl _)
        rcases hs : (map_columns_heap (h ++ [heapRead h r]) h.length ms).2 with e | r1
        · dsimp only
          rw [m3 r hr]
          exact hbase r hr
        · dsimp only
          obtain ⟨t1, t2, t3⟩ := transform_tail_heap_frame
            (map_columns_heap (h ++ [heapRead h r]) h.length ms).1 r1 o h.length m1
            (m2 r1 hs)
          rw [t3 r hr, m3 r hr]
          exact hbase r hr

/-- C9 witness: a one-object heap pushed through a configuration that
exercises every stage; the input object at address 0 is unchanged. -/
theorem claim_C9_witness :
    heapRead (transform_data_heap [[("a", [Cell.int 1])]] 0
        (some ⟨some [⟨true, some "a", some "x"⟩], some [], none, some [("x", "str")],
          false⟩)).1 0
      = heapRead [[("a", [Cell.int 1])]] 0 :=
  claim_C9_input_unchanged [[("a", [Cell.int 1])]] 0
    (some ⟨some [⟨true, some "a", some "x"⟩], some [], none, some [("x", "str")], false⟩)
    (by decide)

end EtlLib
